import Mathlib

/-!
Verification model of the `apsystole/log` Go package (structured logging for
Google Cloud).  The Go sources are shallowly embedded: byte strings become
`List Char`, the `io.Writer` destinations become an abstract `Stream`
inductive, and every logging operation is a pure function returning the
post-state of the `Logger` together with the write it performs.  Machine
integers (`severity int32`) are modelled as `Int`: the code only compares
severities and multiplies small constants, so no overflow is observable.

The embedding follows the current revision of `glog.go` (the one accompanied
by the test file expecting the `logLibMsg` fallback entry, the `;o=0` trace
opt-out and no HTML escaping).
-/

namespace Glog

/-- Byte strings of the Go program, at character granularity. -/
abbrev Chars := List Char

/-- Byte-string literal helper. -/
def chars (s : String) : Chars := s.data

/-! ## JSON values and Go's `encoding/json` serialization

`Jval` models the JSON documents that `json.Marshal` can produce.  Objects
keep their fields in order and may repeat keys, as the encoder's output does.
The three types are one mutual inductive so that `render` below is a
structural recursion (hence computable by the kernel). -/

mutual

inductive Jval where
  | null : Jval
  | boolean (b : Bool) : Jval
  | num (n : Int) : Jval
  | str (s : Chars) : Jval
  | arr (elems : JArr) : Jval
  | obj (fields : JObj) : Jval

inductive JArr where
  | nil : JArr
  | cons (hd : Jval) (tl : JArr) : JArr

inductive JObj where
  | nil : JObj
  | cons (key : Chars) (val : Jval) (tl : JObj) : JObj

end

/-- Concatenation of two field lists. -/
def JObj.append : JObj → JObj → JObj
  | JObj.nil, b => b
  | JObj.cons k v tl, b => JObj.cons k v (JObj.append tl b)

instance : Append JObj := ⟨JObj.append⟩

/-- Whether a field list is empty. -/
def JObj.isNil : JObj → Bool
  | JObj.nil => true
  | JObj.cons _ _ _ => false

/-- Lower-case hex digit, used for `\u00XX` control-character escapes. -/
def hexDigit (n : Nat) : Char :=
  if n < 10 then Char.ofNat (48 + n) else Char.ofNat (87 + n)

/-- How Go's `encoding/json` encoder with `SetEscapeHTML(false)` escapes one
character inside a JSON string: `"` and `\` are backslash-escaped, the three
common control characters get their short forms, other control characters
(and U+2028/U+2029) become `\u`-escapes, and everything else passes through
(in particular `&`, `<`, `>` are untouched). -/
def escapeChar (c : Char) : Chars :=
  if c = '"' then ['\\', '"']
  else if c = '\\' then ['\\', '\\']
  else if c = '\n' then ['\\', 'n']
  else if c = '\r' then ['\\', 'r']
  else if c = '\t' then ['\\', 't']
  else if c.toNat < 32 then
    ['\\', 'u', '0', '0', hexDigit (c.toNat / 16), hexDigit (c.toNat % 16)]
  else if c.toNat = 8232 then ['\\', 'u', '2', '0', '2', '8']
  else if c.toNat = 8233 then ['\\', 'u', '2', '0', '2', '9']
  else [c]

/-- JSON string literal: the Go encoder's quoting of a string value. -/
def quoteString (s : Chars) : Chars :=
  '"' :: ((s.map escapeChar).flatten ++ ['"'])

mutual

/-- The compact serialization `encoding/json` produces for a value (with
HTML escaping disabled, as this library configures its encoders). -/
def render : Jval → Chars
  | Jval.null => chars "null"
  | Jval.boolean true => chars "true"
  | Jval.boolean false => chars "false"
  | Jval.num n => (toString n).data
  | Jval.str s => quoteString s
  | Jval.arr es => '[' :: (renderElems es ++ [']'])
  | Jval.obj fs => '{' :: (renderFields fs ++ ['}'])

/-- Comma-separated array elements. -/
def renderElems : JArr → Chars
  | JArr.nil => []
  | JArr.cons v JArr.nil => render v
  | JArr.cons v tl => render v ++ ',' :: renderElems tl

/-- Comma-separated object fields, no leading comma. -/
def renderFields : JObj → Chars
  | JObj.nil => []
  | JObj.cons k v tl => (quoteString k ++ ':' :: render v) ++ renderFieldsTail tl

/-- Object fields each preceded by a comma. -/
def renderFieldsTail : JObj → Chars
  | JObj.nil => []
  | JObj.cons k v tl => ',' :: ((quoteString k ++ ':' :: render v) ++ renderFieldsTail tl)

end

/-- One rendered `key: value` field. -/
def renderField (k : Chars) (v : Jval) : Chars :=
  quoteString k ++ ':' :: render v

/-! ## Severity model (`type severity int32` and its methods) -/

/-- `type severity int32`. -/
abbrev severity := Int

def debugsev : severity := 0
def infosev : severity := 100
def noticesev : severity := 200
def warningsev : severity := 300
def errorsev : severity := 400
def criticalsev : severity := 500
def alertsev : severity := 600
def emergencysev : severity := 700

/-- `func (s severity) MarshalJSON() ([]byte, error)`: the produced bytes
together with the error (modelled as the error's message).  The default
switch branch yields the `"UNKNOWN"` placeholder and a descriptive error. -/
def severity.MarshalJSON (s : severity) : Chars × Option Chars :=
  if s = debugsev then (chars "\"DEBUG\"", none)
  else if s = infosev then (chars "\"INFO\"", none)
  else if s = noticesev then (chars "\"NOTICE\"", none)
  else if s = warningsev then (chars "\"WARNING\"", none)
  else if s = errorsev then (chars "\"ERROR\"", none)
  else if s = criticalsev then (chars "\"CRITICAL\"", none)
  else if s = alertsev then (chars "\"ALERT\"", none)
  else if s = emergencysev then (chars "\"EMERGENCY\"", none)
  else (chars "\"UNKNOWN\"", some (chars "unknown severity: " ++ (toString s).data))

/-- `func (s severity) IsErrorish() bool { return s >= errorsev }`. -/
def severity.IsErrorish (s : severity) : Bool := errorsev ≤ s

/-- The eight supported severity constants. -/
def sevConstants : List severity :=
  [debugsev, infosev, noticesev, warningsev, errorsev, criticalsev, alertsev, emergencysev]

/-- The documented upper-case name of a supported severity (and the
placeholder for anything else); `severity.MarshalJSON` emits exactly the
JSON quotation of this name. -/
def sevNameChars (s : severity) : Chars :=
  if s = debugsev then chars "DEBUG"
  else if s = infosev then chars "INFO"
  else if s = noticesev then chars "NOTICE"
  else if s = warningsev then chars "WARNING"
  else if s = errorsev then chars "ERROR"
  else if s = criticalsev then chars "CRITICAL"
  else if s = alertsev then chars "ALERT"
  else if s = emergencysev then chars "EMERGENCY"
  else chars "UNKNOWN"

/-! ## Streams and the Logger -/

/-- An `io.Writer` destination: the process-wide standard streams or an
explicitly supplied writer (e.g. the buffer of `New`). -/
inductive Stream where
  | stdout : Stream
  | stderr : Stream
  | custom (id : Nat) : Stream
deriving DecidableEq, Repr

/-- `type Logger struct { out, err io.Writer; mu sync.Mutex; trace json.RawMessage }`.
The mutex only serializes concurrent writes and carries no observable state,
so it is not part of the model.  `trace = []` models a nil `RawMessage`. -/
structure Logger where
  out : Option Stream
  err : Option Stream
  trace : Chars
deriving DecidableEq, Repr

/-- `func (l *Logger) writer(s severity) io.Writer`. -/
def Logger.writer (l : Logger) (s : severity) : Stream :=
  if severity.IsErrorish s then
    match l.err with
    | some w => w
    | none => Stream.stderr
  else
    match l.out with
    | some w => w
    | none => Stream.stdout

/-- One write performed on a stream. -/
structure WriteEv where
  stream : Stream
  bytes : Chars
deriving DecidableEq, Repr

/-! ## Marshalling payloads

`func marshalJSON(in interface{}) ([]byte, error)` is `json.Marshal` with
`SetEscapeHTML(false)` and the encoder's trailing newline trimmed.  A Go
value handed to the structured-payload calls either marshals successfully —
in which case the produced bytes are the serialization of some JSON document
— or its (custom) marshaller returns an error.  `GoVal` models exactly that
observable distinction. -/

inductive GoVal where
  | jsonable (v : Jval) : GoVal
  | badMarshal : GoVal

/-- `marshalJSON` on a payload value: the encoder's compact output on
success, the error otherwise. -/
def marshalJSON : GoVal → Except Unit Chars
  | GoVal.jsonable v => Except.ok (render v)
  | GoVal.badMarshal => Except.error ()

/-- `marshalJSON` applied to a Go `string` value; this never fails. -/
def marshalJSONString (s : Chars) : Chars := quoteString s

/-! ## The plain-text path: `entry`, `logs`, `log`, `logln`, `logf`

`type entry struct` has fields `Message string \json:"message"\` (note: no
`omitempty`), `Severity severity \json:"severity,omitempty"\` and
`Trace json.RawMessage \json:"logging.googleapis.com/trace,omitempty"\`.
`logs` encodes one `entry` with `json.NewEncoder(...).SetEscapeHTML(false)`:
the message field is always present; the severity field is dropped by
`omitempty` exactly when it is the zero value `debugsev`; the trace raw
message is dropped exactly when empty; and when a non-zero severity's
`MarshalJSON` reports an error (unknown severity) the whole `Encode` call
fails and nothing at all is written (the error is discarded). -/

/-- The bytes `Encode(entry{msg, s, trace})` writes: `none` models an
encoding error, in which case the encoder writes nothing. -/
def encodeEntry (msg : Chars) (s : severity) (trace : Chars) : Option Chars :=
  if s ≠ debugsev ∧ (severity.MarshalJSON s).2.isSome then none
  else some ('{' :: (chars "\"message\":" ++ quoteString msg
    ++ (if s = debugsev then [] else chars ",\"severity\":" ++ (severity.MarshalJSON s).1)
    ++ (if trace = [] then [] else chars ",\"logging.googleapis.com/trace\":" ++ trace)
    ++ ['}', '\n']))

/-- Result of `logs` and its wrappers: post-state of the logger, the write
performed, and the returned message string. -/
structure LogsOut where
  post : Logger
  written : WriteEv
  ret : Chars
deriving DecidableEq, Repr

/-- `func logs(s severity, l *Logger, msg string) string`.  A failed encode
writes nothing (`_ = encoder.Encode(entry)` discards the error). -/
def logs (s : severity) (l : Logger) (msg : Chars) : LogsOut :=
  { post := { out := l.out, err := l.err, trace := l.trace }
    written := { stream := Logger.writer l s, bytes := (encodeEntry msg s l.trace).getD [] }
    ret := msg }

/-- `func log(...)`: `fmt.Sprint` of the arguments is outside the model, so
`msg` stands for the already-formatted text. -/
def log (s : severity) (l : Logger) (msg : Chars) : LogsOut := logs s l msg

/-- `func logln(...)`: `msg` stands for the `fmt.Sprintln`-formatted text
(newline included). -/
def logln (s : severity) (l : Logger) (msg : Chars) : LogsOut := logs s l msg

/-- `func logf(...)`: `msg` stands for the `fmt.Sprintf`-formatted text. -/
def logf (s : severity) (l : Logger) (msg : Chars) : LogsOut := logs s l msg

/-! ## The structured path: `logRawJSON` and `logj` -/

/-- Result of the structured writers. -/
structure RawOut where
  post : Logger
  written : WriteEv
deriving DecidableEq, Repr

/-- The reserved-field text `logRawJSON` writes right after the opening
brace, together with the pending separating comma (Go's local `comma`
variable as it stands after the trace section): the message section is
written when `msg` is non-empty, the severity section when `s.MarshalJSON()`
reports no error, the trace section when `l.trace` is non-empty, each
section preceded by a comma exactly when an earlier section was written. -/
def rawParts (s : severity) (trace msg : Chars) : Chars × Chars :=
  let msgPart := if msg = [] then [] else chars "\"message\":" ++ marshalJSONString msg
  let comma1 : Chars := if msg = [] then [] else [',']
  let sevRes := severity.MarshalJSON s
  let sevPart := if sevRes.2 = none then comma1 ++ (chars "\"severity\":" ++ sevRes.1) else []
  let comma2 : Chars := if sevRes.2 = none then [','] else comma1
  let tracePart := if trace = [] then [] else comma2 ++ (chars "\"logging.googleapis.com/trace\":" ++ trace)
  let comma3 : Chars := if trace = [] then comma2 else [',']
  (msgPart ++ sevPart ++ tracePart, comma3)

/-- `func logRawJSON(s severity, l *Logger, msg string, buf []byte)`.
If the first byte of `buf` is `{` that brace is stripped and the reserved
fields are spliced behind a fresh opening brace, the remaining payload
separated by a comma only when it has fields (`len(buf) > 0 && buf[0] != '}'`),
and a final newline appended when the payload did not end in one; otherwise
the payload is wrapped as a `"value":` field.
Stream writes never fail in the model (the Go code bails out on a write
error, best-effort).  Note: on the unreachable input `buf = "{"` the Go code
would panic indexing `buf[len(buf)-1]`; no marshaller output takes that
shape and no theorem below touches it. -/
def logRawJSON (s : severity) (l : Logger) (msg : Chars) (buf0 : Chars) : RawOut :=
  let w := Logger.writer l s
  let parts := rawParts s l.trace msg
  let jsonStruct := decide (buf0.head? = some '{')
  let buf := if jsonStruct then buf0.tail else buf0
  let post : Logger := { out := l.out, err := l.err, trace := l.trace }
  if jsonStruct then
    let commaP := if buf ≠ [] ∧ ¬ buf.head? = some '}' then parts.2 else []
    let nl : Chars := if buf.getLast? = some '\n' then [] else ['\n']
    { post := post
      written := { stream := w, bytes := '{' :: (parts.1 ++ commaP ++ buf ++ nl) } }
  else
    { post := post
      written := { stream := w
                   bytes := '{' :: (parts.1 ++ parts.2 ++ chars "\"value\":" ++ buf ++ ['}', '\n']) } }

/-- The diagnostic payload `logj` substitutes when the caller's marshaller
returns an error. -/
def fallbackPayload : Chars :=
  '{' :: (chars "\"logLibMsg\":\"cannot marshal the argument as jsonPayload\"" ++ ['}'])

/-- `func logj(s severity, l *Logger, msg string, item interface{})`: marshal
the payload; on a normal marshal error fall back to the `logLibMsg`
diagnostic payload instead of propagating the error (the model's totality is
the non-propagation: every branch still returns a write). -/
def logj (s : severity) (l : Logger) (msg : Chars) (item : GoVal) : RawOut :=
  match marshalJSON item with
  | Except.error _ => logRawJSON s l msg fallbackPayload
  | Except.ok buf => logRawJSON s l msg buf

/-! ## Per-request construction: `ForRequest` -/

/-- `strings.HasPrefix`-style check: does the first list start with the
second? -/
def leadsWith : Chars → Chars → Bool
  | _, [] => true
  | [], _ :: _ => false
  | c :: cs, d :: ds => c == d && leadsWith cs ds

/-- `strings.Contains(haystack, needle)`. -/
def containsStr : Chars → Chars → Bool
  | [], needle => needle.isEmpty
  | c :: cs, needle => leadsWith (c :: cs) needle || containsStr cs needle

/-- `strings.TrimLeft(s, cutset)`: drop the longest run of leading
characters that belong to the cutset. -/
def trimLeftIn : Chars → Chars → Chars
  | [], _ => []
  | c :: cs, cutset => if cutset.contains c then trimLeftIn cs cutset else c :: cs

/-- The cutset of characters a candidate trace id may consist of. -/
def traceContextCutset : Chars := chars "0123456789abcdefABCDEFxX"

/-- `func ForRequest(request *http.Request) *Logger`, as a function of the
package-level `ProjectID` and the `X-Cloud-Trace-Context` header value
(http plumbing is outside the model).  Rules of the source, in order:
tracing disabled when the project id is empty; the first `/` must exist at a
positive index no greater than 256; a `;o=0` anywhere after it opts out;
the candidate id before it must consist of hex digits, `x` and `X` only;
an all-zero candidate is ignored; otherwise the trace fragment is the JSON
quotation of `projects/<ProjectID>/traces/<candidate>`. -/
def ForRequest (projectID : Chars) (header : Chars) : Logger :=
  let l0 : Logger := { out := none, err := none, trace := [] }
  if projectID = [] then l0
  else
    match header.findIdx? (fun c => c == '/') with
    | none => l0
    | some i =>
      if 0 < i ∧ i ≤ 256 then
        if containsStr (header.drop i) (chars ";o=0") then l0
        else
          let t := header.take i
          if ¬ trimLeftIn t traceContextCutset = [] then l0
          else if t.count '0' = t.length then l0
          else { out := none, err := none
                 trace := marshalJSONString (chars "projects/" ++ projectID ++ chars "/traces/" ++ t) }
      else l0

/-! ## Termination helpers: the `Fatal*` and `Panic*` families

These are modelled by their observable event sequence: the write the inner
logging call performs, followed by the terminating action.  `panic(log(...))`
carries the formatted message string that `log` returns; `Panicj` performs
`logj(...)` and then `panic(v)` with the original payload argument. -/

/-- A Go panic value: either a string (the `panic(log(...))` family) or the
raw payload argument (`Panicj`). -/
inductive PanicVal where
  | strv (s : Chars) : PanicVal
  | goval (v : GoVal) : PanicVal

/-- Observable process events of a terminating helper. -/
inductive Event where
  | write (ev : WriteEv) : Event
  | exitProc (code : Nat) : Event
  | panicEv (v : PanicVal) : Event

/-- Post-state plus the ordered events a terminating helper produces. -/
structure TermOut where
  post : Logger
  events : List Event

/-- `func (l *Logger) Fatal(v ...interface{})`: log at CRITICAL, then
`os.Exit(1)`. -/
def Logger.Fatal (l : Logger) (msg : Chars) : TermOut :=
  let r := log criticalsev l msg
  { post := r.post, events := [Event.write r.written, Event.exitProc 1] }

/-- `func (l *Logger) Fatalln(...)`. -/
def Logger.Fatalln (l : Logger) (msg : Chars) : TermOut :=
  let r := logln criticalsev l msg
  { post := r.post, events := [Event.write r.written, Event.exitProc 1] }

/-- `func (l *Logger) Fatalf(...)`. -/
def Logger.Fatalf (l : Logger) (msg : Chars) : TermOut :=
  let r := logf criticalsev l msg
  { post := r.post, events := [Event.write r.written, Event.exitProc 1] }

/-- `func (l *Logger) Fatalj(msg string, v interface{})`. -/
def Logger.Fatalj (l : Logger) (msg : Chars) (item : GoVal) : TermOut :=
  let r := logj criticalsev l msg item
  { post := r.post, events := [Event.write r.written, Event.exitProc 1] }

/-- `func (l *Logger) Panic(v ...interface{}) { panic(log(criticalsev, l, v...)) }`. -/
def Logger.Panic (l : Logger) (msg : Chars) : TermOut :=
  let r := log criticalsev l msg
  { post := r.post, events := [Event.write r.written, Event.panicEv (PanicVal.strv r.ret)] }

/-- `func (l *Logger) Panicln(...)`. -/
def Logger.Panicln (l : Logger) (msg : Chars) : TermOut :=
  let r := logln criticalsev l msg
  { post := r.post, events := [Event.write r.written, Event.panicEv (PanicVal.strv r.ret)] }

/-- `func (l *Logger) Panicf(...)`. -/
def Logger.Panicf (l : Logger) (msg : Chars) : TermOut :=
  let r := logf criticalsev l msg
  { post := r.post, events := [Event.write r.written, Event.panicEv (PanicVal.strv r.ret)] }

/-- `func (l *Logger) Panicj(msg string, v interface{})`: logs via `logj`,
then panics with the payload argument `v` itself. -/
def Logger.Panicj (l : Logger) (msg : Chars) (item : GoVal) : TermOut :=
  let r := logj criticalsev l msg item
  { post := r.post, events := [Event.write r.written, Event.panicEv (PanicVal.goval item)] }

/-! ## Specification-side vocabulary used by the theorems -/

/-- The trace slot of a logger, as an optional unquoted trace string:
`ForRequest` leaves either no trace or the JSON quotation of one. -/
def renderTraceOpt : Option Chars → Chars
  | none => []
  | some ts => quoteString ts

/-- The `message` reserved field: present exactly when the message is
non-empty. -/
def messageFieldObj (msg : Chars) : JObj :=
  if msg = [] then JObj.nil else JObj.cons (chars "message") (Jval.str msg) JObj.nil

/-- The `severity` reserved field: present exactly when the severity
marshals without error (i.e. is one of the eight constants). -/
def severityFieldObj (s : severity) : JObj :=
  if (severity.MarshalJSON s).2 = none
  then JObj.cons (chars "severity") (Jval.str (sevNameChars s)) JObj.nil
  else JObj.nil

/-- The trace reserved field: present exactly when the logger carries a
trace fragment. -/
def traceFieldObj : Option Chars → JObj
  | none => JObj.nil
  | some ts => JObj.cons (chars "logging.googleapis.com/trace") (Jval.str ts) JObj.nil

/-- The reserved fields, as JSON object fields, that the structured path
splices in: `message` when the message is non-empty, `severity` when the
severity marshals without error, and the trace key when the logger carries a
trace — in that order. -/
def reservedFields (msg : Chars) (s : severity) (tso : Option Chars) : JObj :=
  messageFieldObj msg ++ (severityFieldObj s ++ traceFieldObj tso)

/-! ## Basic lemmas about the serializer -/

theorem quoteString_ne_nil (s : Chars) : quoteString s ≠ [] := by
  simp [quoteString]

theorem quoteString_head (s : Chars) : (quoteString s).head? = some '"' := by
  simp [quoteString]

theorem JObj.nil_append (b : JObj) : JObj.append JObj.nil b = b := rfl

theorem JObj.cons_append (k : Chars) (v : Jval) (tl b : JObj) :
    JObj.append (JObj.cons k v tl) b = JObj.cons k v (JObj.append tl b) := rfl

theorem renderFieldsTail_append :
    ∀ a b : JObj, renderFieldsTail (JObj.append a b) = renderFieldsTail a ++ renderFieldsTail b
  | JObj.nil, b => by simp [JObj.append, renderFieldsTail]
  | JObj.cons k v tl, b => by
    simp [JObj.append, renderFieldsTail, renderFieldsTail_append tl b]

theorem renderFields_cons (k : Chars) (v : Jval) (tl : JObj) :
    renderFields (JObj.cons k v tl) = renderField k v ++ renderFieldsTail tl := rfl

theorem renderFieldsTail_cons (k : Chars) (v : Jval) (tl : JObj) :
    renderFieldsTail (JObj.cons k v tl) = ',' :: renderFields (JObj.cons k v tl) := rfl

theorem renderFields_append (a b : JObj) :
    renderFields (JObj.append a b) = renderFields a ++
      (match a with
       | JObj.nil => renderFields b
       | JObj.cons _ _ _ => renderFieldsTail b) := by
  cases a with
  | nil => simp [JObj.append, renderFields]
  | cons k v tl =>
    simp [JObj.append, renderFields, renderFieldsTail_append, List.append_assoc]

theorem render_obj (fs : JObj) : render (Jval.obj fs) = '{' :: (renderFields fs ++ ['}']) := by
  simp [render]

theorem render_str (s : Chars) : render (Jval.str s) = quoteString s := by
  simp [render]

/-! ## Severity lemmas -/

theorem sev_ok_of_mem (s : severity) (hs : s ∈ sevConstants) :
    (severity.MarshalJSON s).2 = none := by
  simp only [sevConstants, List.mem_cons, List.not_mem_nil, or_false] at hs
  rcases hs with h | h | h | h | h | h | h | h <;> (subst h; decide)

theorem sevBytes_of_ok (s : severity) (h : (severity.MarshalJSON s).2 = none) :
    (severity.MarshalJSON s).1 = quoteString (sevNameChars s) := by
  unfold severity.MarshalJSON sevNameChars at *
  split_ifs at * <;> simp_all <;> decide

theorem sev_err_of_not_mem (s : severity) (hs : s ∉ sevConstants) :
    severity.MarshalJSON s =
      (chars "\"UNKNOWN\"", some (chars "unknown severity: " ++ (toString s).data)) := by
  simp only [sevConstants, List.mem_cons, List.not_mem_nil, or_false, not_or] at hs
  obtain ⟨h1, h2, h3, h4, h5, h6, h7, h8⟩ := hs
  unfold severity.MarshalJSON
  split_ifs
  all_goals simp_all

/-! ## Key-text lemmas: concrete JSON key spellings -/

theorem key_message_eq (r : Chars) :
    quoteString (chars "message") ++ ':' :: r = chars "\"message\":" ++ r := by
  have h1 : quoteString (chars "message") = chars "\"message\"" := by decide
  have h2 : chars "\"message\":" = chars "\"message\"" ++ [':'] := by decide
  simp [h1, h2, List.append_assoc]

theorem key_severity_eq (r : Chars) :
    quoteString (chars "severity") ++ ':' :: r = chars "\"severity\":" ++ r := by
  have h1 : quoteString (chars "severity") = chars "\"severity\"" := by decide
  have h2 : chars "\"severity\":" = chars "\"severity\"" ++ [':'] := by decide
  simp [h1, h2, List.append_assoc]

theorem key_trace_eq (r : Chars) :
    quoteString (chars "logging.googleapis.com/trace") ++ ':' :: r =
      chars "\"logging.googleapis.com/trace\":" ++ r := by
  have h1 : quoteString (chars "logging.googleapis.com/trace") =
      chars "\"logging.googleapis.com/trace\"" := by decide
  have h2 : chars "\"logging.googleapis.com/trace\":" =
      chars "\"logging.googleapis.com/trace\"" ++ [':'] := by decide
  simp [h1, h2, List.append_assoc]

theorem key_value_eq (r : Chars) :
    quoteString (chars "value") ++ ':' :: r = chars "\"value\":" ++ r := by
  have h1 : quoteString (chars "value") = chars "\"value\"" := by decide
  have h2 : chars "\"value\":" = chars "\"value\"" ++ [':'] := by decide
  simp [h1, h2, List.append_assoc]

theorem JObj.append_nil : ∀ a : JObj, JObj.append a JObj.nil = a
  | JObj.nil => rfl
  | JObj.cons k v tl => by rw [JObj.append, JObj.append_nil tl]

theorem JObj.append_eq (a b : JObj) : a ++ b = JObj.append a b := rfl

theorem getLast_append_single (X : Chars) (c : Char) : (X ++ [c]).getLast? = some c :=
  List.getLast?_concat X

theorem getLast_cons_of_ne_nil (c : Char) (X : Chars) (h : X ≠ []) :
    (c :: X).getLast? = X.getLast? := by
  cases X with
  | nil => exact absurd rfl h
  | cons a tl => rw [List.getLast?_cons_cons]

/-- The reserved text `logRawJSON` assembles is exactly the rendering of the
`reservedFields` object, and its pending comma is non-empty exactly when
some reserved field was written. -/
theorem rawParts_eq (s : severity) (msg : Chars) (tso : Option Chars) :
    rawParts s (renderTraceOpt tso) msg =
      (renderFields (reservedFields msg s tso),
       if JObj.isNil (reservedFields msg s tso) then ([] : Chars) else [',']) := by
  by_cases hm : msg = [] <;>
    by_cases hsev : (severity.MarshalJSON s).2 = none <;>
    rcases tso with _ | ts
  all_goals
    first
    | simp [rawParts, marshalJSONString, reservedFields, messageFieldObj, severityFieldObj,
        traceFieldObj, renderTraceOpt, renderFields,
        renderFieldsTail, JObj.append_eq, JObj.append, JObj.isNil, render, hm, hsev,
        sevBytes_of_ok s hsev, quoteString_ne_nil, key_message_eq, key_severity_eq,
        key_trace_eq, List.append_assoc]
    | simp [rawParts, marshalJSONString, reservedFields, messageFieldObj, severityFieldObj,
        traceFieldObj, renderTraceOpt, renderFields,
        renderFieldsTail, JObj.append_eq, JObj.append, JObj.isNil, render, hm, hsev,
        quoteString_ne_nil, key_message_eq, key_severity_eq, key_trace_eq, List.append_assoc]

/-- `logRawJSON` on a buffer that starts with `{`: the splice branch. -/
theorem logRawJSON_struct (s : severity) (l : Logger) (msg : Chars) (rest : Chars) :
    logRawJSON s l msg ('{' :: rest) =
      { post := { out := l.out, err := l.err, trace := l.trace }
        written := { stream := Logger.writer l s
                     bytes := '{' :: ((rawParts s l.trace msg).1 ++
                       (if rest ≠ [] ∧ ¬ rest.head? = some '}' then (rawParts s l.trace msg).2 else []) ++
                       (rest ++ (if rest.getLast? = some '\n' then [] else ['\n']))) } } := by
  simp [logRawJSON, List.append_assoc]

/-- `logRawJSON` on a buffer that does not start with `{`: the `"value":`
wrapping branch. -/
theorem logRawJSON_nonstruct (s : severity) (l : Logger) (msg : Chars) (buf0 : Chars)
    (h : ¬ buf0.head? = some '{') :
    logRawJSON s l msg buf0 =
      { post := { out := l.out, err := l.err, trace := l.trace }
        written := { stream := Logger.writer l s
                     bytes := '{' :: ((rawParts s l.trace msg).1 ++ ((rawParts s l.trace msg).2 ++
                       (chars "\"value\":" ++ (buf0 ++ ['}', '\n'])))) } } := by
  simp [logRawJSON, h, List.append_assoc]

/-- Master lemma for object payloads: splicing the reserved fields into the
serialization of a JSON object produces exactly the serialization of the
object with the reserved fields prepended, newline-terminated. -/
theorem logRawJSON_renderObj (s : severity) (l : Logger) (msg : Chars) (tso : Option Chars)
    (fields : JObj) (htr : l.trace = renderTraceOpt tso) :
    (logRawJSON s l msg (render (Jval.obj fields))).written =
      { stream := Logger.writer l s
        bytes := render (Jval.obj (JObj.append (reservedFields msg s tso) fields)) ++ ['\n'] } := by
  have hP := rawParts_eq s msg tso
  rw [render_obj, render_obj]
  cases fields with
  | nil =>
    rw [JObj.append_nil]
    simp only [renderFields, List.nil_append, logRawJSON_struct, htr, hP]
    simp [getLast_append_single]
  | cons k v tl =>
    simp only [renderFields, logRawJSON_struct, htr, hP]
    have hlast : (':' :: (render v ++ (renderFieldsTail tl ++ ['}']))).getLast? = some '}' := by
      rw [getLast_cons_of_ne_nil]
      · simp
      · simp
    cases hres : reservedFields msg s tso with
    | nil =>
      simp only [renderFields_append, hres, JObj.nil_append, renderFields]
      simp [hlast, quoteString_head, JObj.isNil, List.append_assoc]
    | cons k2 v2 tl2 =>
      simp only [renderFields_append, hres]
      simp only [← hres]
      simp [hlast, hres, quoteString_head, JObj.isNil, renderFieldsTail, renderFields,
        List.append_assoc]

/-- Master lemma for non-object payloads: the payload is wrapped as a
`"value"` field after the reserved fields, and the whole line is again the
serialization of a single JSON object, newline-terminated. -/
theorem logRawJSON_renderValue (s : severity) (l : Logger) (msg : Chars) (tso : Option Chars)
    (v : Jval) (htr : l.trace = renderTraceOpt tso) (hv : ¬ (render v).head? = some '{') :
    (logRawJSON s l msg (render v)).written =
      { stream := Logger.writer l s
        bytes := render (Jval.obj (JObj.append (reservedFields msg s tso)
          (JObj.cons (chars "value") v JObj.nil))) ++ ['\n'] } := by
  have hP := rawParts_eq s msg tso
  rw [logRawJSON_nonstruct s l msg _ hv, render_obj]
  simp only [htr, hP]
  cases hres : reservedFields msg s tso with
  | nil =>
    simp only [JObj.nil_append, renderFields, renderFieldsTail]
    simp [JObj.isNil, key_value_eq, List.append_assoc]
  | cons k2 v2 tl2 =>
    simp only [renderFields_append, hres]
    simp only [← hres]
    simp [JObj.isNil, hres, key_value_eq, renderFieldsTail, renderFields, List.append_assoc]

/-- The bytes the plain-text path writes, whenever the severity encodes
(it is the zero value or one whose `MarshalJSON` succeeds). -/
theorem logs_bytes (s : severity) (l : Logger) (msg : Chars)
    (hsev : s = debugsev ∨ (severity.MarshalJSON s).2 = none) :
    (logs s l msg).written.bytes =
      '{' :: (chars "\"message\":" ++ quoteString msg
        ++ (if s = debugsev then [] else chars ",\"severity\":" ++ (severity.MarshalJSON s).1)
        ++ (if l.trace = [] then [] else chars ",\"logging.googleapis.com/trace\":" ++ l.trace)
        ++ ['}', '\n']) := by
  rcases hsev with h | h
  · simp [logs, encodeEntry, h]
  · by_cases hd : s = debugsev
    · simp [logs, encodeEntry, hd]
    · simp [logs, encodeEntry, hd, h]

theorem logs_stream (s : severity) (l : Logger) (msg : Chars) :
    (logs s l msg).written.stream = Logger.writer l s := rfl

theorem logs_post (s : severity) (l : Logger) (msg : Chars) :
    (logs s l msg).post = l := rfl

theorem logRawJSON_stream (s : severity) (l : Logger) (msg buf : Chars) :
    (logRawJSON s l msg buf).written.stream = Logger.writer l s := by
  by_cases hb : buf.head? = some '{' <;> simp [logRawJSON, hb]

theorem logRawJSON_post (s : severity) (l : Logger) (msg buf : Chars) :
    (logRawJSON s l msg buf).post = l := by
  by_cases hb : buf.head? = some '{' <;> simp [logRawJSON, hb]

theorem logj_stream (s : severity) (l : Logger) (msg : Chars) (item : GoVal) :
    (logj s l msg item).written.stream = Logger.writer l s := by
  cases item <;> simp [logj, marshalJSON, logRawJSON_stream]

theorem logj_post (s : severity) (l : Logger) (msg : Chars) (item : GoVal) :
    (logj s l msg item).post = l := by
  cases item <;> simp [logj, marshalJSON, logRawJSON_post]

/-! ## Claim theorems -/

/-- C4: every log call (plain, structured-splice, structured) writes to the
error stream exactly when the severity is error-ish, i.e. numerically at or
above `errorsev`, and to the normal stream otherwise; a logger's explicit
stream override is preferred over the process-wide default stream. -/
theorem C4_writer_routing (s : severity) (l : Logger) (msg buf : Chars) (item : GoVal) :
    ((logs s l msg).written.stream =
      if severity.IsErrorish s then l.err.getD Stream.stderr else l.out.getD Stream.stdout)
    ∧ (severity.IsErrorish s = true ↔ errorsev ≤ s)
    ∧ (logRawJSON s l msg buf).written.stream = (logs s l msg).written.stream
    ∧ (logj s l msg item).written.stream = (logs s l msg).written.stream := by
    refine ⟨?_, ?_, ?_, ?_⟩
    · cases hE : severity.IsErrorish s <;> cases he : l.err <;> cases ho : l.out <;>
        simp [logs, Logger.writer, hE, he, ho]
    · simp [severity.IsErrorish]
    · rw [logRawJSON_stream, logs_stream]
    · rw [logj_stream, logs_stream]

/-- C10: no logging operation mutates the logger: the trace fragment and
the stream overrides are unchanged by every call shape, including the
process-terminating and fault-raising helpers. -/
theorem C10_logger_state_unchanged (s : severity) (l : Logger) (msg buf : Chars) (item : GoVal) :
    (logs s l msg).post = l ∧ (log s l msg).post = l ∧ (logln s l msg).post = l
    ∧ (logf s l msg).post = l ∧ (logRawJSON s l msg buf).post = l ∧ (logj s l msg item).post = l
    ∧ (Logger.Fatal l msg).post = l ∧ (Logger.Fatalln l msg).post = l
    ∧ (Logger.Fatalf l msg).post = l ∧ (Logger.Fatalj l msg item).post = l
    ∧ (Logger.Panic l msg).post = l ∧ (Logger.Panicln l msg).post = l
    ∧ (Logger.Panicf l msg).post = l ∧ (Logger.Panicj l msg item).post = l := by
    refine ⟨rfl, rfl, rfl, rfl, logRawJSON_post s l msg buf, logj_post s l msg item,
      rfl, rfl, rfl, ?_, rfl, rfl, rfl, ?_⟩
    · simp [Logger.Fatalj, logj_post]
    · simp [Logger.Panicj, logj_post]

/-- C7 counterexample: `Panicj` panics with its payload argument, not with
the formatted message text — here the message is `boom` but the carried
panic value is the payload, and a payload panic value never equals a string
panic value. -/
theorem C7_panicj_counterexample :
    (Logger.Panicj { out := none, err := none, trace := [] } (chars "boom")
        (GoVal.jsonable (Jval.obj JObj.nil))).events.getLast? =
      some (Event.panicEv (PanicVal.goval (GoVal.jsonable (Jval.obj JObj.nil))))
    ∧ Event.panicEv (PanicVal.goval (GoVal.jsonable (Jval.obj JObj.nil))) ≠
        Event.panicEv (PanicVal.strv (chars "boom")) := by
    refine ⟨rfl, ?_⟩
    intro h
    simp at h

/-- C7 (amended): each `Fatal*` helper performs its log write and then
exits the process with status 1 (non-zero); each of `Panic`, `Panicln`,
`Panicf` performs its log write and then panics carrying the formatted
message text; `Panicj` performs its log write and then panics carrying its
payload argument (not the message).  In every event list the write strictly
precedes the terminating event. -/
theorem C7_terminators (l : Logger) (msg : Chars) (item : GoVal) :
    (Logger.Fatal l msg).events = [Event.write (logs criticalsev l msg).written, Event.exitProc 1]
    ∧ (Logger.Fatalln l msg).events = [Event.write (logs criticalsev l msg).written, Event.exitProc 1]
    ∧ (Logger.Fatalf l msg).events = [Event.write (logs criticalsev l msg).written, Event.exitProc 1]
    ∧ (Logger.Fatalj l msg item).events =
        [Event.write (logj criticalsev l msg item).written, Event.exitProc 1]
    ∧ (Logger.Panic l msg).events =
        [Event.write (logs criticalsev l msg).written, Event.panicEv (PanicVal.strv msg)]
    ∧ (Logger.Panicln l msg).events =
        [Event.write (logs criticalsev l msg).written, Event.panicEv (PanicVal.strv msg)]
    ∧ (Logger.Panicf l msg).events =
        [Event.write (logs criticalsev l msg).written, Event.panicEv (PanicVal.strv msg)]
    ∧ (Logger.Panicj l msg item).events =
        [Event.write (logj criticalsev l msg item).written, Event.panicEv (PanicVal.goval item)]
    ∧ (1 : Nat) ≠ 0 :=
  ⟨rfl, rfl, rfl, rfl, rfl, rfl, rfl, rfl, one_ne_zero⟩

/-- C1: a structured-payload call whose payload serializes to a JSON object
emits that object with the reserved assignments `message`, `severity` and
the trace key spliced right after the opening brace, in that order, each
exactly once and before every payload field; the separating comma between
the reserved fields and the payload appears exactly when the payload object
is non-empty (this is what equality with the rendering of the combined
object says, for empty and non-empty payloads alike); and the emitted line
is the serialization of a single JSON document followed by a newline, hence
valid JSON. -/
theorem C1_object_splice (s : severity) (l : Logger) (msg ts : Chars) (fields : JObj)
    (hs : (severity.MarshalJSON s).2 = none) (hmsg : msg ≠ [])
    (htr : l.trace = quoteString ts) :
    (logj s l msg (GoVal.jsonable (Jval.obj fields))).written =
      { stream := Logger.writer l s
        bytes := render (Jval.obj (JObj.cons (chars "message") (Jval.str msg)
          (JObj.cons (chars "severity") (Jval.str (sevNameChars s))
            (JObj.cons (chars "logging.googleapis.com/trace") (Jval.str ts) fields)))) ++ ['\n'] }
    ∧ ∃ doc : Jval,
        (logj s l msg (GoVal.jsonable (Jval.obj fields))).written.bytes = render doc ++ ['\n'] := by
    have h2 := logRawJSON_renderObj s l msg (some ts) fields (by simpa [renderTraceOpt] using htr)
    have h3 : JObj.append (reservedFields msg s (some ts)) fields =
        JObj.cons (chars "message") (Jval.str msg)
          (JObj.cons (chars "severity") (Jval.str (sevNameChars s))
            (JObj.cons (chars "logging.googleapis.com/trace") (Jval.str ts) fields)) := by
      simp [reservedFields, messageFieldObj, severityFieldObj, traceFieldObj, hmsg, hs,
        JObj.append_eq, JObj.append]
    have h4 : (logj s l msg (GoVal.jsonable (Jval.obj fields))).written =
        { stream := Logger.writer l s
          bytes := render (Jval.obj (JObj.cons (chars "message") (Jval.str msg)
            (JObj.cons (chars "severity") (Jval.str (sevNameChars s))
              (JObj.cons (chars "logging.googleapis.com/trace") (Jval.str ts) fields)))) ++ ['\n'] } := by
      show (logRawJSON s l msg (render (Jval.obj fields))).written = _
      rw [h2, h3]
    exact ⟨h4, ⟨_, by rw [h4]⟩⟩

/-- C2: when the payload's marshaller reports a normal error, the call
still emits one entry — the diagnostic fallback object
`{"message":<msg>,"severity":<sev>,"logLibMsg":"cannot marshal the argument
as jsonPayload"}` — and the error is never propagated (the model of `logj`
is total: the error branch produces this write instead of failing). -/
theorem C2_marshal_error_fallback (s : severity) (l : Logger) (msg : Chars) (item : GoVal)
    (hs : (severity.MarshalJSON s).2 = none) (hmsg : msg ≠ []) (htr : l.trace = [])
    (hbad : marshalJSON item = Except.error ()) :
    (logj s l msg item).written =
      { stream := Logger.writer l s
        bytes := render (Jval.obj (JObj.cons (chars "message") (Jval.str msg)
          (JObj.cons (chars "severity") (Jval.str (sevNameChars s))
            (JObj.cons (chars "logLibMsg")
              (Jval.str (chars "cannot marshal the argument as jsonPayload")) JObj.nil)))) ++ ['\n'] } := by
    have hfb : fallbackPayload =
        render (Jval.obj (JObj.cons (chars "logLibMsg")
          (Jval.str (chars "cannot marshal the argument as jsonPayload")) JObj.nil)) := by decide
    have hjj : logj s l msg item = logRawJSON s l msg fallbackPayload := by
      cases item <;> simp_all [logj, marshalJSON]
    have h2 := logRawJSON_renderObj s l msg none
      (JObj.cons (chars "logLibMsg")
        (Jval.str (chars "cannot marshal the argument as jsonPayload")) JObj.nil)
      (by simpa [renderTraceOpt] using htr)
    have h3 : JObj.append (reservedFields msg s none)
        (JObj.cons (chars "logLibMsg")
          (Jval.str (chars "cannot marshal the argument as jsonPayload")) JObj.nil) =
        JObj.cons (chars "message") (Jval.str msg)
          (JObj.cons (chars "severity") (Jval.str (sevNameChars s))
            (JObj.cons (chars "logLibMsg")
              (Jval.str (chars "cannot marshal the argument as jsonPayload")) JObj.nil)) := by
      simp [reservedFields, messageFieldObj, severityFieldObj, traceFieldObj, hmsg, hs,
        JObj.append_eq, JObj.append]
    rw [hjj, hfb, h2, h3]

/-- C6: a structured-payload call whose payload serializes to a non-object
JSON value (null — a typed or untyped nil —, a string, a number, an array)
emits a single JSON object holding the reserved fields plus a `value` field
containing the payload's original encoding, and the line is the
serialization of a single JSON document plus newline, hence valid JSON. -/
theorem C6_nonobject_value_wrap (s : severity) (l : Logger) (msg ts : Chars) (v : Jval)
    (hs : (severity.MarshalJSON s).2 = none) (hmsg : msg ≠ [])
    (htr : l.trace = quoteString ts) (hv : ¬ (render v).head? = some '{') :
    (logj s l msg (GoVal.jsonable v)).written =
      { stream := Logger.writer l s
        bytes := render (Jval.obj (JObj.cons (chars "message") (Jval.str msg)
          (JObj.cons (chars "severity") (Jval.str (sevNameChars s))
            (JObj.cons (chars "logging.googleapis.com/trace") (Jval.str ts)
              (JObj.cons (chars "value") v JObj.nil))))) ++ ['\n'] }
    ∧ ∃ doc : Jval,
        (logj s l msg (GoVal.jsonable v)).written.bytes = render doc ++ ['\n'] := by
    have h2 := logRawJSON_renderValue s l msg (some ts) v
      (by simpa [renderTraceOpt] using htr) hv
    have h3 : JObj.append (reservedFields msg s (some ts)) (JObj.cons (chars "value") v JObj.nil) =
        JObj.cons (chars "message") (Jval.str msg)
          (JObj.cons (chars "severity") (Jval.str (sevNameChars s))
            (JObj.cons (chars "logging.googleapis.com/trace") (Jval.str ts)
              (JObj.cons (chars "value") v JObj.nil))) := by
      simp [reservedFields, messageFieldObj, severityFieldObj, traceFieldObj, hmsg, hs,
        JObj.append_eq, JObj.append]
    have h4 : (logj s l msg (GoVal.jsonable v)).written =
        { stream := Logger.writer l s
          bytes := render (Jval.obj (JObj.cons (chars "message") (Jval.str msg)
            (JObj.cons (chars "severity") (Jval.str (sevNameChars s))
              (JObj.cons (chars "logging.googleapis.com/trace") (Jval.str ts)
                (JObj.cons (chars "value") v JObj.nil))))) ++ ['\n'] } := by
      show (logRawJSON s l msg (render v)).written = _
      rw [h2, h3]
    exact ⟨h4, ⟨_, by rw [h4]⟩⟩

/-- C9: for a severity value outside the eight named constants, the strict
marshal path returns the `"UNKNOWN"` placeholder bytes together with a
descriptive error, and the structured-splice path reacts to that error by
omitting the severity field entirely while still emitting the rest of the
entry (message, trace and payload fields). -/
theorem C9_unknown_severity (s : severity) (l : Logger) (msg : Chars) (tso : Option Chars)
    (fields : JObj) (hs : s ∉ sevConstants) (htr : l.trace = renderTraceOpt tso) :
    severity.MarshalJSON s =
      (chars "\"UNKNOWN\"", some (chars "unknown severity: " ++ (toString s).data))
    ∧ (logj s l msg (GoVal.jsonable (Jval.obj fields))).written =
        { stream := Logger.writer l s
          bytes := render (Jval.obj (JObj.append
            (JObj.append (messageFieldObj msg) (traceFieldObj tso))
            fields)) ++ ['\n'] } := by
    have h1 := sev_err_of_not_mem s hs
    refine ⟨h1, ?_⟩
    have h2 := logRawJSON_renderObj s l msg tso fields htr
    have h3 : reservedFields msg s tso =
        JObj.append (messageFieldObj msg) (traceFieldObj tso) := by
      have hne : ¬ (severity.MarshalJSON s).2 = none := by rw [h1]; simp
      simp [reservedFields, severityFieldObj, hne, JObj.append_eq, JObj.append]
    show (logRawJSON s l msg (render (Jval.obj fields))).written = _
    rw [h2, h3]

/-- C5 counterexample: in the plain shape with the DEBUG severity and an
empty message, the emitted line is `{"message":""}` — the severity field is
absent (not the uppercase name `DEBUG`, because `omitempty` drops the zero
value) and the message field is present although the message is empty.
Both presence rules of the claim fail at this input. -/
theorem C5_plain_debug_counterexample :
    containsStr (logs debugsev { out := none, err := none, trace := [] } []).written.bytes
      (chars "\"severity\"") = false
    ∧ containsStr (logs debugsev { out := none, err := none, trace := [] } []).written.bytes
      (chars "\"message\":\"\"") = true := by decide

/-- C5 (amended): for each of the eight supported severities — in the
structured shape the `severity` field always equals the documented
uppercase name and the message is omitted exactly when empty; in the plain
shape the `severity` field equals the uppercase name for the seven non-zero
severities but is omitted for DEBUG (the zero value), and the `message`
field is always present, an empty message appearing as `""`; the trace
field is omitted exactly when the logger carries no trace, in both
shapes. -/
theorem C5_severity_names (s : severity) (l : Logger) (msg : Chars) (tso : Option Chars)
    (fields : JObj) (hs : s ∈ sevConstants) (htr : l.trace = renderTraceOpt tso) :
    (logs s l msg).written.bytes =
      '{' :: (chars "\"message\":" ++ quoteString msg
        ++ (if s = debugsev then [] else chars ",\"severity\":" ++ quoteString (sevNameChars s))
        ++ (if l.trace = [] then [] else chars ",\"logging.googleapis.com/trace\":" ++ l.trace)
        ++ ['}', '\n'])
    ∧ (logj s l msg (GoVal.jsonable (Jval.obj fields))).written.bytes =
        render (Jval.obj (JObj.append (JObj.append (messageFieldObj msg)
          (JObj.cons (chars "severity") (Jval.str (sevNameChars s)) (traceFieldObj tso)))
          fields)) ++ ['\n'] := by
    have hok := sev_ok_of_mem s hs
    constructor
    · rw [logs_bytes s l msg (Or.inr hok), sevBytes_of_ok s hok]
    · have h2 := logRawJSON_renderObj s l msg tso fields htr
      have h3 : reservedFields msg s tso = JObj.append (messageFieldObj msg)
          (JObj.cons (chars "severity") (Jval.str (sevNameChars s)) (traceFieldObj tso)) := by
        simp [reservedFields, severityFieldObj, hok, JObj.append_eq, JObj.append]
      show (logRawJSON s l msg (render (Jval.obj fields))).written.bytes = _
      rw [h2, h3]

/-- C8 counterexample: a plain INFO call with an empty message emits
`{"message":"","severity":"INFO"}` — the `message` key is present although
the message string is empty; and a structured DEBUG call emits
`"severity":"DEBUG"` although DEBUG is the default (zero) severity value.
Both contradict the claimed omission rules. -/
theorem C8_omission_counterexample :
    containsStr (logs infosev { out := none, err := none, trace := [] } []).written.bytes
      (chars "\"message\":\"\"") = true
    ∧ containsStr (logj debugsev { out := none, err := none, trace := [] } (chars "m")
        (GoVal.jsonable (Jval.obj JObj.nil))).written.bytes
      (chars "\"severity\":\"DEBUG\"") = true := by decide

/-- C8 (amended): the omission rules actually implemented are: in the plain
shape the `message` key is always present (even empty), `severity` is
omitted exactly when it is the default zero value DEBUG, and the trace key
exactly when the logger carries no trace; in the structured shape `message`
is omitted exactly when empty, `severity` exactly when the severity is
unknown (all eight named severities appear, DEBUG included), and the trace
key exactly when absent — as recorded by `reservedFields`. -/
theorem C8_reserved_key_omission (s : severity) (l : Logger) (msg : Chars) (tso : Option Chars)
    (fields : JObj) (htr : l.trace = renderTraceOpt tso) :
    ((s = debugsev ∨ (severity.MarshalJSON s).2 = none) →
      (logs s l msg).written.bytes =
        '{' :: (chars "\"message\":" ++ quoteString msg
          ++ (if s = debugsev then [] else chars ",\"severity\":" ++ (severity.MarshalJSON s).1)
          ++ (if l.trace = [] then [] else chars ",\"logging.googleapis.com/trace\":" ++ l.trace)
          ++ ['}', '\n']))
    ∧ (logj s l msg (GoVal.jsonable (Jval.obj fields))).written.bytes =
        render (Jval.obj (JObj.append (reservedFields msg s tso) fields)) ++ ['\n'] := by
    refine ⟨fun h => logs_bytes s l msg h, ?_⟩
    have h2 := logRawJSON_renderObj s l msg tso fields htr
    show (logRawJSON s l msg (render (Jval.obj fields))).written.bytes = _
    rw [h2]

theorem trimLeftIn_eq_nil_iff (t cut : Chars) :
    trimLeftIn t cut = [] ↔ ∀ c ∈ t, cut.contains c = true := by
  induction t with
  | nil => simp [trimLeftIn]
  | cons c cs ih =>
    by_cases h : cut.contains c = true
    · rw [trimLeftIn, if_pos h]
      constructor
      · intro h1 d hd
        rcases List.mem_cons.1 hd with rfl | hd2
        · exact h
        · exact ih.1 h1 d hd2
      · intro h1
        exact ih.2 (fun d hd => h1 d (List.mem_cons_of_mem c hd))
    · rw [trimLeftIn, if_neg h]
      exact ⟨fun habs => absurd habs (List.cons_ne_nil c cs),
             fun h1 => absurd (h1 c (List.mem_cons_self c cs)) h⟩

/-- C3: the ordered trace-extraction rules of `ForRequest`.  An empty
project id always yields no trace; a header without a `/` yields no trace;
given the first `/` at index `i`: a `;o=0` anywhere from the separator on
yields no trace, a candidate id with a character outside hex digits/`x`/`X`
or longer than the 256-byte bound yields no trace, an all-zero candidate
yields no trace; otherwise the trace is the JSON string
`projects/<project>/traces/<candidate>`. -/
theorem C3_trace_extraction (projectID header : Chars) :
    (projectID = [] → (ForRequest projectID header).trace = [])
    ∧ ((¬ '/' ∈ header) → (ForRequest projectID header).trace = [])
    ∧ (∀ i, header.findIdx? (fun c => c == '/') = some i →
        (containsStr (header.drop i) (chars ";o=0") = true →
          (ForRequest projectID header).trace = [])
        ∧ ((∃ c ∈ header.take i, traceContextCutset.contains c = false) ∨ 256 < i →
          (ForRequest projectID header).trace = [])
        ∧ ((∀ c ∈ header.take i, c = '0') → (ForRequest projectID header).trace = [])
        ∧ (projectID ≠ [] → 0 < i → i ≤ 256 →
            containsStr (header.drop i) (chars ";o=0") = false →
            (∀ c ∈ header.take i, traceContextCutset.contains c = true) →
            (∃ c ∈ header.take i, c ≠ '0') →
            (ForRequest projectID header).trace =
              quoteString (chars "projects/" ++ projectID ++ chars "/traces/" ++ header.take i))) := by
    refine ⟨?_, ?_, ?_⟩
    · intro h; simp [ForRequest, h]
    · intro h
      have hnone : header.findIdx? (fun c => c == '/') = none := by
        rw [List.findIdx?_eq_none_iff]
        intro x hx
        simp only [beq_eq_false_iff_ne, ne_eq]
        intro hc; exact h (hc ▸ hx)
      by_cases hpid : projectID = [] <;> simp [ForRequest, hpid, hnone]
    · intro i hi
      by_cases hpid : projectID = []
      · refine ⟨?_, ?_, ?_, ?_⟩ <;> intros <;> simp_all [ForRequest]
      by_cases hrange : 0 < i ∧ i ≤ 256
      case neg =>
        refine ⟨?_, ?_, ?_, ?_⟩
        · intro _; simp [ForRequest, hpid, hi, hrange]
        · intro _; simp [ForRequest, hpid, hi, hrange]
        · intro _; simp [ForRequest, hpid, hi, hrange]
        · intro _ h1 h2
          exact absurd ⟨h1, h2⟩ hrange
      case pos =>
        refine ⟨?_, ?_, ?_, ?_⟩
        · intro hc
          simp [ForRequest, hpid, hi, hrange, hc]
        · intro hbad
          rcases hbad with ⟨c, hc, hcnot⟩ | hlong
          · have htrim : ¬ trimLeftIn (header.take i) traceContextCutset = [] := by
              rw [trimLeftIn_eq_nil_iff]
              intro hall
              have hcc := hall c hc
              rw [hcnot] at hcc
              exact Bool.false_ne_true hcc
            by_cases hc0 : containsStr (header.drop i) (chars ";o=0") = true
            · simp [ForRequest, hpid, hi, hrange, hc0]
            · simp [ForRequest, hpid, hi, hrange, hc0, htrim]
          · exact absurd hrange.2 (by omega)
        · intro hzero
          have hcnt : (header.take i).count '0' = (header.take i).length :=
            List.count_eq_length.2 (fun b hb => (hzero b hb).symm)
          by_cases hc0 : containsStr (header.drop i) (chars ";o=0") = true
          · simp [ForRequest, hpid, hi, hrange, hc0]
          · by_cases htrim : trimLeftIn (header.take i) traceContextCutset = []
            · simp [ForRequest, hpid, hi, hrange, hc0, htrim, hcnt]
            · simp [ForRequest, hpid, hi, hrange, hc0, htrim]
        · intro _ _ _ hc0 hhex hnz
          have htrim : trimLeftIn (header.take i) traceContextCutset = [] :=
            (trimLeftIn_eq_nil_iff _ _).2 hhex
          have hcnt : ¬ (header.take i).count '0' = (header.take i).length := by
            rw [List.count_eq_length]
            push_neg
            rcases hnz with ⟨c, hc, hcne⟩
            exact ⟨c, hc, fun h => hcne h.symm⟩
          have hcnt2 : ¬ List.count '0' (List.take i header) = i ⊓ List.length header := by
            simpa using hcnt
          simp [ForRequest, hpid, hi, hrange, hc0, htrim, hcnt, hcnt2, marshalJSONString]

/-! ## Witnesses: the claim theorems applied at concrete inputs -/

/-- C1 witness: an INFO structured call with message `hi`, a trace, and the
one-field payload object `{"a":1}`. -/
theorem C1_object_splice_witness :
    (severity.MarshalJSON infosev).2 = none ∧ chars "hi" ≠ [] ∧
    (Logger.mk none none (quoteString (chars "t1"))).trace = quoteString (chars "t1") ∧
    (logj infosev (Logger.mk none none (quoteString (chars "t1"))) (chars "hi")
        (GoVal.jsonable (Jval.obj (JObj.cons (chars "a") (Jval.num 1) JObj.nil)))).written =
      { stream := Logger.writer (Logger.mk none none (quoteString (chars "t1"))) infosev
        bytes := render (Jval.obj (JObj.cons (chars "message") (Jval.str (chars "hi"))
          (JObj.cons (chars "severity") (Jval.str (sevNameChars infosev))
            (JObj.cons (chars "logging.googleapis.com/trace") (Jval.str (chars "t1"))
              (JObj.cons (chars "a") (Jval.num 1) JObj.nil))))) ++ ['\n'] } :=
  ⟨by decide, by decide, rfl,
    (C1_object_splice infosev (Logger.mk none none (quoteString (chars "t1"))) (chars "hi")
      (chars "t1") (JObj.cons (chars "a") (Jval.num 1) JObj.nil)
      (by decide) (by decide) rfl).1⟩

/-- C2 witness: a WARNING structured call whose payload marshaller fails;
the fallback entry is emitted. -/
theorem C2_marshal_error_fallback_witness :
    (severity.MarshalJSON warningsev).2 = none ∧ chars "a" ≠ [] ∧
    (Logger.mk none none []).trace = [] ∧
    marshalJSON GoVal.badMarshal = Except.error () ∧
    (logj warningsev (Logger.mk none none []) (chars "a") GoVal.badMarshal).written =
      { stream := Logger.writer (Logger.mk none none []) warningsev
        bytes := render (Jval.obj (JObj.cons (chars "message") (Jval.str (chars "a"))
          (JObj.cons (chars "severity") (Jval.str (sevNameChars warningsev))
            (JObj.cons (chars "logLibMsg")
              (Jval.str (chars "cannot marshal the argument as jsonPayload")) JObj.nil)))) ++ ['\n'] } :=
  ⟨by decide, by decide, rfl, rfl,
    C2_marshal_error_fallback warningsev (Logger.mk none none []) (chars "a") GoVal.badMarshal
      (by decide) (by decide) rfl rfl⟩

/-- C3 witness: the spec's worked example — header
`00000000000000000000000000000001/1;o=1` with project `my-project` yields
the quoted trace fragment
`projects/my-project/traces/00000000000000000000000000000001`. -/
theorem C3_trace_extraction_witness :
    chars "my-project" ≠ [] ∧
    (chars "00000000000000000000000000000001/1;o=1").findIdx? (fun c => c == '/') = some 32 ∧
    containsStr ((chars "00000000000000000000000000000001/1;o=1").drop 32) (chars ";o=0") = false ∧
    (∀ c ∈ (chars "00000000000000000000000000000001/1;o=1").take 32,
      traceContextCutset.contains c = true) ∧
    (∃ c ∈ (chars "00000000000000000000000000000001/1;o=1").take 32, c ≠ '0') ∧
    (ForRequest (chars "my-project") (chars "00000000000000000000000000000001/1;o=1")).trace =
      quoteString (chars "projects/my-project/traces/00000000000000000000000000000001") :=
  ⟨by decide, by decide, by decide, by decide, by decide,
    (((C3_trace_extraction (chars "my-project")
        (chars "00000000000000000000000000000001/1;o=1")).2.2 32 (by decide)).2.2.2
      (by decide) (by decide) (by decide) (by decide) (by decide) (by decide)).trans
      (by decide)⟩

/-- C5 witness: a NOTICE call, plain and structured, without a trace, with
the payload object `{"Seq":42}`. -/
theorem C5_severity_names_witness :
    noticesev ∈ sevConstants ∧
    (Logger.mk none none []).trace = renderTraceOpt none ∧
    (logs noticesev (Logger.mk none none []) (chars "warning")).written.bytes =
      '{' :: (chars "\"message\":" ++ quoteString (chars "warning")
        ++ (if noticesev = debugsev then []
            else chars ",\"severity\":" ++ quoteString (sevNameChars noticesev))
        ++ (if (Logger.mk none none []).trace = [] then []
            else chars ",\"logging.googleapis.com/trace\":" ++ (Logger.mk none none []).trace)
        ++ ['}', '\n']) ∧
    (logj noticesev (Logger.mk none none []) (chars "warning")
        (GoVal.jsonable (Jval.obj (JObj.cons (chars "Seq") (Jval.num 42) JObj.nil)))).written.bytes =
      render (Jval.obj (JObj.append (JObj.append (messageFieldObj (chars "warning"))
        (JObj.cons (chars "severity") (Jval.str (sevNameChars noticesev)) (traceFieldObj none)))
        (JObj.cons (chars "Seq") (Jval.num 42) JObj.nil))) ++ ['\n'] :=
  ⟨by decide, rfl,
    (C5_severity_names noticesev (Logger.mk none none []) (chars "warning") none
      (JObj.cons (chars "Seq") (Jval.num 42) JObj.nil) (by decide) rfl).1,
    (C5_severity_names noticesev (Logger.mk none none []) (chars "warning") none
      (JObj.cons (chars "Seq") (Jval.num 42) JObj.nil) (by decide) rfl).2⟩

/-- C6 witness: a DEBUG structured call whose payload is JSON `null` (an
untyped or typed nil), with a trace; the payload is wrapped as `value`. -/
theorem C6_nonobject_value_wrap_witness :
    (severity.MarshalJSON debugsev).2 = none ∧ chars "test" ≠ [] ∧
    (Logger.mk none none (quoteString (chars "123"))).trace = quoteString (chars "123") ∧
    ¬ (render Jval.null).head? = some '{' ∧
    (logj debugsev (Logger.mk none none (quoteString (chars "123"))) (chars "test")
        (GoVal.jsonable Jval.null)).written =
      { stream := Logger.writer (Logger.mk none none (quoteString (chars "123"))) debugsev
        bytes := render (Jval.obj (JObj.cons (chars "message") (Jval.str (chars "test"))
          (JObj.cons (chars "severity") (Jval.str (sevNameChars debugsev))
            (JObj.cons (chars "logging.googleapis.com/trace") (Jval.str (chars "123"))
              (JObj.cons (chars "value") Jval.null JObj.nil))))) ++ ['\n'] } :=
  ⟨by decide, by decide, rfl, by decide,
    (C6_nonobject_value_wrap debugsev (Logger.mk none none (quoteString (chars "123")))
      (chars "test") (chars "123") Jval.null (by decide) (by decide) rfl (by decide)).1⟩

/-- C8 witness: an EMERGENCY call with empty message and no trace, plain
and structured, with the empty payload object. -/
theorem C8_reserved_key_omission_witness :
    (Logger.mk none none []).trace = renderTraceOpt none ∧
    (emergencysev = debugsev ∨ (severity.MarshalJSON emergencysev).2 = none) ∧
    (logs emergencysev (Logger.mk none none []) []).written.bytes =
      '{' :: (chars "\"message\":" ++ quoteString []
        ++ (if emergencysev = debugsev then []
            else chars ",\"severity\":" ++ (severity.MarshalJSON emergencysev).1)
        ++ (if (Logger.mk none none []).trace = [] then []
            else chars ",\"logging.googleapis.com/trace\":" ++ (Logger.mk none none []).trace)
        ++ ['}', '\n']) ∧
    (logj emergencysev (Logger.mk none none []) []
        (GoVal.jsonable (Jval.obj JObj.nil))).written.bytes =
      render (Jval.obj (JObj.append (reservedFields [] emergencysev none) JObj.nil)) ++ ['\n'] :=
  ⟨rfl, Or.inr (by decide),
    (C8_reserved_key_omission emergencysev (Logger.mk none none []) [] none JObj.nil rfl).1
      (Or.inr (by decide)),
    (C8_reserved_key_omission emergencysev (Logger.mk none none []) [] none JObj.nil rfl).2⟩

/-- C9 witness: severity value 42, outside the eight constants: `UNKNOWN`
placeholder plus error from the strict marshal path, severity omitted from
the structured entry. -/
theorem C9_unknown_severity_witness :
    (42 : severity) ∉ sevConstants ∧
    (Logger.mk none none []).trace = renderTraceOpt none ∧
    severity.MarshalJSON 42 =
      (chars "\"UNKNOWN\"", some (chars "unknown severity: " ++ (toString (42 : Int)).data)) ∧
    (logj 42 (Logger.mk none none []) (chars "m")
        (GoVal.jsonable (Jval.obj JObj.nil))).written =
      { stream := Logger.writer (Logger.mk none none []) 42
        bytes := render (Jval.obj (JObj.append
          (JObj.append (messageFieldObj (chars "m")) (traceFieldObj none)) JObj.nil)) ++ ['\n'] } :=
  ⟨by decide, rfl,
    (C9_unknown_severity 42 (Logger.mk none none []) (chars "m") none JObj.nil (by decide) rfl).1,
    (C9_unknown_severity 42 (Logger.mk none none []) (chars "m") none JObj.nil (by decide) rfl).2⟩

/-! ## Model validation against the repository's test vectors

Each theorem below evaluates the embedding on one input of the repository's
own test suite (`glog_test.go`) and checks the exact bytes the test expects.
They pin the embedding to the Go code's observed behaviour. -/

/-- `TestLogger_Print/"empty message"`: `{"message":"","severity":"INFO"}`. -/
theorem modelTest_print_empty :
    (logs infosev (Logger.mk (some (Stream.custom 0)) none []) []).written.bytes =
      chars "\x7b\"message\":\"\",\"severity\":\"INFO\"\x7d\n" := by decide

/-- `TestLogger_Print/"ending newline"`: the newline inside the message is
escaped, `{"message":"test\n","severity":"INFO"}`. -/
theorem modelTest_print_newline :
    (logs infosev (Logger.mk (some (Stream.custom 0)) none []) (chars "test\n")).written.bytes =
      chars "\x7b\"message\":\"test\\n\",\"severity\":\"INFO\"\x7d\n" := by decide

/-- `TestLogger_Print/"ampersand"`: no HTML escaping,
`{"message":"m&m","severity":"INFO"}`. -/
theorem modelTest_print_ampersand :
    (logs infosev (Logger.mk (some (Stream.custom 0)) none []) (chars "m&m")).written.bytes =
      chars "\x7b\"message\":\"m&m\",\"severity\":\"INFO\"\x7d\n" := by decide

/-- `TestLogger_Debugj/"easy struct"`:
`{"message":"test","severity":"DEBUG","Text":"t"}`. -/
theorem modelTest_debugj_struct :
    (logj debugsev (Logger.mk (some (Stream.custom 0)) none []) (chars "test")
        (GoVal.jsonable (Jval.obj (JObj.cons (chars "Text") (Jval.str (chars "t")) JObj.nil)))).written.bytes =
      chars "\x7b\"message\":\"test\",\"severity\":\"DEBUG\",\"Text\":\"t\"\x7d\n" := by decide

/-- `TestLogger_Debugj/"tracing the numeral"`: raw trace fragment `"123"`,
`{"message":"test","severity":"DEBUG","logging.googleapis.com/trace":"123","Text":"t"}`. -/
theorem modelTest_debugj_trace :
    (logj debugsev (Logger.mk (some (Stream.custom 0)) none (chars "\"123\"")) (chars "test")
        (GoVal.jsonable (Jval.obj (JObj.cons (chars "Text") (Jval.str (chars "t")) JObj.nil)))).written.bytes =
      chars "\x7b\"message\":\"test\",\"severity\":\"DEBUG\",\"logging.googleapis.com/trace\":\"123\",\"Text\":\"t\"\x7d\n" := by
  decide

/-- `TestLogger_Debugj/"empty struct"`: no comma before the empty payload,
`{"message":"test","severity":"DEBUG"}`. -/
theorem modelTest_debugj_empty_struct :
    (logj debugsev (Logger.mk (some (Stream.custom 0)) none []) (chars "test")
        (GoVal.jsonable (Jval.obj JObj.nil))).written.bytes =
      chars "\x7b\"message\":\"test\",\"severity\":\"DEBUG\"\x7d\n" := by decide

/-- `TestLogger_Debugj/"typed nil"` and `"untyped nil"`: both marshal to
`null`, wrapped as `{"message":"test","severity":"DEBUG","value":null}`. -/
theorem modelTest_debugj_nil :
    (logj debugsev (Logger.mk (some (Stream.custom 0)) none []) (chars "test")
        (GoVal.jsonable Jval.null)).written.bytes =
      chars "\x7b\"message\":\"test\",\"severity\":\"DEBUG\",\"value\":null\x7d\n" := by decide

/-- `TestPrintj_FailingMarshaler`: the diagnostic fallback entry
`{"message":"a","severity":"INFO","logLibMsg":"cannot marshal the argument as jsonPayload"}`. -/
theorem modelTest_failing_marshaller :
    (logj infosev (Logger.mk (some (Stream.custom 0)) none []) (chars "a")
        GoVal.badMarshal).written.bytes =
      chars "\x7b\"message\":\"a\",\"severity\":\"INFO\",\"logLibMsg\":\"cannot marshal the argument as jsonPayload\"\x7d\n" := by
  decide

/-- `TestLogger_Panic`: one write of
`{"message":"a","severity":"CRITICAL"}` then a panic carrying `"a"`. -/
theorem modelTest_panic :
    (Logger.Panic (Logger.mk (some (Stream.custom 0)) (some (Stream.custom 0)) [])
        (chars "a")).events =
      [Event.write { stream := Stream.custom 0
                     bytes := chars "\x7b\"message\":\"a\",\"severity\":\"CRITICAL\"\x7d\n" },
       Event.panicEv (PanicVal.strv (chars "a"))] := rfl

/-- `ExampleNoticej`-style structured entry with a numeric payload field:
`{"message":"warning","severity":"NOTICE","Seq":42}`. -/
theorem modelTest_noticej_number :
    (logj noticesev (Logger.mk (some (Stream.custom 0)) none []) (chars "warning")
        (GoVal.jsonable (Jval.obj (JObj.cons (chars "Seq") (Jval.num 42) JObj.nil)))).written.bytes =
      chars "\x7b\"message\":\"warning\",\"severity\":\"NOTICE\",\"Seq\":42\x7d\n" := by decide

/-- `TestForRequest`, all table rows: empty header, header without a
project id, the basic tracing example, the header without the `o` option,
the `;o=0` opt-out, the header with no trace id before `/`, and the
malformed trace id. -/
theorem modelTest_forRequest_table :
    (ForRequest [] []).trace = []
    ∧ (ForRequest [] (chars "00000000000000000000000000000001/1;")).trace = []
    ∧ (ForRequest (chars "my-project") (chars "00000000000000000000000000000001/1;o=1")).trace =
        chars "\"projects/my-project/traces/00000000000000000000000000000001\""
    ∧ (ForRequest (chars "my-project") (chars "00000000000000000000000000000001/1")).trace =
        chars "\"projects/my-project/traces/00000000000000000000000000000001\""
    ∧ (ForRequest (chars "my-project") (chars "00000000000000000000000000000001/1;o=0")).trace = []
    ∧ (ForRequest (chars "my-project") (chars "/123;o=1")).trace = []
    ∧ (ForRequest (chars "my-project") (chars "&/123;o=1")).trace = [] := by decide

end Glog
